import Mathlib

/-!
# Verification of `simple_extract` (berrym/simple_extract)

Shallow embedding of the archive-dispatch and extraction-execution pipeline of
`src/simple_extract/simple_extract.py` (the most complete version of the
program; the 2021 top-level `simple_extract.py` is noted where it differs).

External collaborators (the OS, the spawned tools, the network, `urllib`) are
modelled by explicit outcome parameters: a spawned tool either fails to launch
(Python raises `OSError`) or exits with a code (`subprocess.run(check=True)`
raises `CalledProcessError` on a non-zero code); the HTTP HEAD probe either
fails (`HTTPError`/`URLError`) or yields an optional `content-length`.
Filesystem state is modelled as the list of existing file names, and the
observable side effects of each operation are returned explicitly.
-/

namespace SimpleExtract

/-! ## String primitives mirroring the Python string/pathlib operations -/

/-- `str.split(sep)` for a single-character separator, on character lists. -/
def splitOnChar (sep : Char) : List Char → List (List Char)
  | [] => [[]]
  | c :: cs =>
    let r := splitOnChar sep cs
    if c = sep then [] :: r
    else
      match r with
      | [] => [[c]]
      | g :: gs => (c :: g) :: gs

/-- `str.split(sep)` for a single-character separator. -/
def pySplit (s : String) (sep : Char) : List String :=
  (splitOnChar sep s.data).map String.mk

/-- `str.endswith(suf)`. -/
def strEndsWith (s suf : String) : Bool :=
  decide (suf.length ≤ s.length) && (s.data.drop (s.length - suf.length) == suf.data)

/-- `str.removesuffix(suf)`: drops `suf` from the end when the string ends
with it and `suf` is non-empty, otherwise returns the string unchanged. -/
def removesuffix (s suf : String) : String :=
  if suf.length ≠ 0 && strEndsWith s suf then String.mk (s.data.take (s.length - suf.length))
  else s

/-- Index of the last `'.'` in a character list (`str.rfind('.')`),
`none` when there is no dot. -/
def lastDotIdx : List Char → Option Nat
  | [] => none
  | c :: cs =>
    match lastDotIdx cs with
    | some i => some (i + 1)
    | none => if c = '.' then some 0 else none

/-- The final path component: `PurePath(p).name` / `os.path.split(p)[1]`
(for ordinary paths without a trailing slash). -/
def pyName (p : String) : String :=
  (pySplit p '/').getLastD ""

/-- `PurePath.suffix`: the extension from the last dot, unless the dot is the
first or the last character of the name. -/
def pySuffix (name : String) : String :=
  match lastDotIdx name.data with
  | some i => if 0 < i ∧ i < name.length - 1 then String.mk (name.data.drop i) else ""
  | none => ""

/-- `PurePath.stem`: the name with `pySuffix` removed. -/
def pyStem (name : String) : String :=
  String.mk (name.data.take (name.length - (pySuffix name).length))

/-- `PurePath.suffixes`: the list of extensions of the name, e.g.
`[".tar", ".gz"]` for `foo.tar.gz`. -/
def pySuffixes (name : String) : List String :=
  if strEndsWith name "." then []
  else ((pySplit (String.mk (name.data.dropWhile (· = '.'))) '.').drop 1).map (fun s => "." ++ s)

/-! ## `strip_suffix` (Extension Classifier, target derivation) -/

/-- The `valid_suffixes` tuple of `strip_suffix`. -/
def valid_suffixes : List String :=
  [".tbz2", ".tbz", ".tgz", ".txz", ".tar", ".rar", ".lzh", ".7z", ".zip", ".jar",
   ".rpm", ".deb", ".bz2", ".gz", ".Z", ".xz", ".lzma", ".zst"]

/-- `strip_suffix(archive)`: starts from `PurePath(archive).stem` and then,
for each element of `PurePath(archive).suffixes` in order, removes it from the
end of the running target when it is one of `valid_suffixes`. -/
def strip_suffix (archive : String) : String :=
  let target_path := pyName archive
  let init := pyStem target_path
  (pySuffixes target_path).foldl
    (fun target suffix =>
      if valid_suffixes.contains suffix then removesuffix target suffix else target)
    init

/-! ## `ArchiveCommand` and the format table of `process_commands` -/

/-- `ArchiveCommand`: the information needed to extract one archive format. -/
structure ArchiveCommand where
  extract_cmd : String
  pipe_cmd : String
  uses_stdin : Bool
  uses_stdout : Bool
deriving DecidableEq

/-- The `command_map` dictionary of `process_commands`, as the ordered list of
its entries (Python dicts preserve insertion order, and the matching loop
iterates `command_map.items()` in that order). Constructor arguments are
`extract_cmd`, `pipe_cmd`, `uses_stdin`, `uses_stdout`; the Python defaults
`""`/`False` are spelled out. -/
def command_map : List (String × ArchiveCommand) :=
  [("*.tar.bz2", ⟨"tar -xvjf -", "", true, false⟩),
   ("*.tbz2", ⟨"tar -xvjf -", "", true, false⟩),
   ("*.tbz", ⟨"tar -xvjf -", "", true, false⟩),
   ("*.tar.gz", ⟨"tar -xvzf -", "", true, false⟩),
   ("*.tgz", ⟨"tar -xvzf -", "", true, false⟩),
   ("*.tar.xz", ⟨"tar -xvJf -", "", true, false⟩),
   ("*.txz", ⟨"tar -xvJf -", "", true, false⟩),
   ("*.tar.lzma", ⟨"tar -xvJf -", "", true, false⟩),
   ("*.tar.zst", ⟨"tar --zstd -xvf -", "", true, false⟩),
   ("*.tar", ⟨"tar -xvf -", "", true, false⟩),
   ("*.rar", ⟨"unrar x", "", false, false⟩),
   ("*.lzh", ⟨"lha x", "", false, false⟩),
   ("*.7z", ⟨"7z x", "", false, false⟩),
   ("*.zip", ⟨"unzip", "", false, false⟩),
   ("*.jar", ⟨"unzip", "", false, false⟩),
   ("*.rpm", ⟨"rpm2cpio -", "cpio -idvm", false, false⟩),
   ("*.deb", ⟨"ar -x", "", false, false⟩),
   ("*.bz2", ⟨"bzip2 -d -c -", "", true, true⟩),
   ("*.gz", ⟨"gzip -d -c -", "", true, true⟩),
   ("*.Z", ⟨"gzip -d -c -", "", true, true⟩),
   ("*.xz", ⟨"xz -d -c -", "", true, true⟩),
   ("*.lzma", ⟨"xz -d -c -", "", true, true⟩),
   ("*.zst", ⟨"zstd -d -c -", "", true, true⟩)]

/-- Glob matching for the patterns of `command_map`, which all have the shape
`*.<ext>`: the filename must end with the literal part after `*`, and glob
does not match hidden files (a leading dot) against a leading `*`. -/
def globMatch (pat fname : String) : Bool :=
  strEndsWith fname (String.mk (pat.data.drop 1)) &&
    !(match fname.data with | '.' :: _ => true | _ => false)

/-- `filename in glob.glob(extension)`: the file must be present in the
scanned directory (`dirFiles`, the contents of the working directory after the
`os.chdir` to the archive's directory) and match the pattern. -/
def matchesInDir (dirFiles : List String) (pat fname : String) : Bool :=
  dirFiles.contains fname && globMatch pat fname

/-- The inner loop of `process_commands` over `command_map.items()` for one
archive: each matching pattern appends the pair `(archive, command)` unless
the archive is already in `glob_files` (the accumulated first components), so
only the first matching pattern contributes. The parallel lists `glob_files`
and `commands` are represented as one list of pairs (they are only ever
appended to together and consumed zipped). -/
def addLoop (dirFiles : List String) (filename : String) :
    List (String × ArchiveCommand) → List (String × ArchiveCommand) →
      List (String × ArchiveCommand)
  | [], acc => acc
  | pc :: rest, acc =>
    addLoop dirFiles filename rest
      (if matchesInDir dirFiles pc.1 filename = true then
        (if filename ∈ acc.map Prod.fst then acc else acc ++ [(filename, pc.2)])
      else acc)

/-- The outer loop of `process_commands` over `archives` (modelled over the
bare filenames of one scanned directory). -/
def processLoop (dirFiles : List String) :
    List String → List (String × ArchiveCommand) → List (String × ArchiveCommand)
  | [], acc => acc
  | a :: rest, acc => processLoop dirFiles rest (addLoop dirFiles a command_map acc)

/-- `process_commands`: pairs each archive with the plan of the first
`command_map` pattern matching it, at most once per archive. -/
def process_commands (dirFiles archives : List String) : List (String × ArchiveCommand) :=
  processLoop dirFiles archives []

/-! ### Classification lemmas -/

theorem addLoop_skip (dirFiles : List String) (f : String)
    (pats : List (String × ArchiveCommand)) :
    ∀ acc, f ∈ acc.map Prod.fst → addLoop dirFiles f pats acc = acc := by
  induction pats with
  | nil => intro acc _; rfl
  | cons pc rest ih =>
    intro acc h
    unfold addLoop
    by_cases hm : matchesInDir dirFiles pc.1 f = true
    · rw [if_pos hm, if_pos h]
      exact ih acc h
    · rw [if_neg hm]
      exact ih acc h

theorem addLoop_eq_find (dirFiles : List String) (f : String)
    (pats : List (String × ArchiveCommand)) :
    ∀ acc, f ∉ acc.map Prod.fst →
      addLoop dirFiles f pats acc =
        (match pats.find? (fun pc => matchesInDir dirFiles pc.1 f) with
         | some pc => acc ++ [(f, pc.2)]
         | none => acc) := by
  induction pats with
  | nil => intro acc _; rfl
  | cons pc rest ih =>
    intro acc h
    by_cases hm : matchesInDir dirFiles pc.1 f = true
    · unfold addLoop
      have hfind : List.find? (fun pc => matchesInDir dirFiles pc.1 f) (pc :: rest) = some pc := by
        simp [List.find?_cons, hm]
      rw [if_pos hm, if_neg h, hfind]
      show addLoop dirFiles f rest (acc ++ [(f, pc.2)]) = acc ++ [(f, pc.2)]
      apply addLoop_skip
      simp
    · unfold addLoop
      have hm0 : matchesInDir dirFiles pc.1 f = false := by simpa using hm
      have hfind : List.find? (fun pc => matchesInDir dirFiles pc.1 f) (pc :: rest) =
          List.find? (fun pc => matchesInDir dirFiles pc.1 f) rest := by
        simp [List.find?_cons, hm0]
      rw [if_neg hm, hfind]
      exact ih acc h

/-- The possible outcomes of one pass of the inner matching loop. -/
theorem addLoop_cases (dirFiles : List String) (f : String)
    (acc : List (String × ArchiveCommand)) :
    addLoop dirFiles f command_map acc = acc ∨
      ∃ pc, command_map.find? (fun pc => matchesInDir dirFiles pc.1 f) = some pc ∧
        f ∉ acc.map Prod.fst ∧
        addLoop dirFiles f command_map acc = acc ++ [(f, pc.2)] := by
  by_cases h : f ∈ acc.map Prod.fst
  · exact Or.inl (addLoop_skip dirFiles f command_map acc h)
  · rw [addLoop_eq_find dirFiles f command_map acc h]
    cases hf : command_map.find? (fun pc => matchesInDir dirFiles pc.1 f) with
    | none => exact Or.inl rfl
    | some pc => exact Or.inr ⟨pc, rfl, h, rfl⟩

/-- With `x.tar.bz2` present in the scanned directory, the first matching
pattern of `command_map` is `*.tar.bz2`, whose plan is the tar-aware one. -/
theorem find_tarbz2 (dirFiles : List String) (h : dirFiles.contains "x.tar.bz2" = true) :
    command_map.find? (fun pc => matchesInDir dirFiles pc.1 "x.tar.bz2") =
      some ("*.tar.bz2", ⟨"tar -xvjf -", "", true, false⟩) := by
  have hm : matchesInDir dirFiles "*.tar.bz2" "x.tar.bz2" = true := by
    unfold matchesInDir
    rw [h]
    decide
  unfold command_map
  simp [List.find?_cons, hm]

theorem processLoop_inv (dirFiles : List String) (h : dirFiles.contains "x.tar.bz2" = true)
    (archives : List String) :
    ∀ acc,
      (∀ pr ∈ acc, pr.1 = "x.tar.bz2" →
          pr.2 = (⟨"tar -xvjf -", "", true, false⟩ : ArchiveCommand)) →
      (acc.map Prod.fst).Nodup →
      (∀ pr ∈ processLoop dirFiles archives acc, pr.1 = "x.tar.bz2" →
          pr.2 = (⟨"tar -xvjf -", "", true, false⟩ : ArchiveCommand)) ∧
        ((processLoop dirFiles archives acc).map Prod.fst).Nodup := by
  induction archives with
  | nil => intro acc h1 h2; exact ⟨h1, h2⟩
  | cons a rest ih =>
    intro acc h1 h2
    unfold processLoop
    rcases addLoop_cases dirFiles a acc with heq | ⟨pc, hfind, hnotmem, heq⟩
    · rw [heq]; exact ih acc h1 h2
    · rw [heq]
      apply ih
      · intro pr hpr hkey
        rcases List.mem_append.mp hpr with hin | hin
        · exact h1 pr hin hkey
        · have hpr' : pr = (a, pc.2) := by simpa using hin
          subst hpr'
          have ha : a = "x.tar.bz2" := hkey
          subst ha
          rw [find_tarbz2 dirFiles h] at hfind
          simp only [Option.some.injEq] at hfind
          rw [← hfind]
      · rw [List.map_append]
        simp only [List.map_cons, List.map_nil]
        rw [List.nodup_append]
        exact ⟨h2, List.nodup_singleton _, by simpa using hnotmem⟩

/-- C3: classification is first-match-wins over the fixed order of
`command_map`: a file named `x.tar.bz2` present in the scanned directory is
always paired with the tar-aware plan (`tar -xvjf -`, reads stdin), never with
the raw-stream `bzip2` plan, and each archive path is paired with at most one
plan (the first components of the result are duplicate-free). -/
theorem C3_first_match_wins (dirFiles archives : List String)
    (h : dirFiles.contains "x.tar.bz2" = true) :
    (∀ pr ∈ process_commands dirFiles archives, pr.1 = "x.tar.bz2" →
        pr.2 = (⟨"tar -xvjf -", "", true, false⟩ : ArchiveCommand) ∧
          pr.2 ≠ (⟨"bzip2 -d -c -", "", true, true⟩ : ArchiveCommand)) ∧
      ((process_commands dirFiles archives).map Prod.fst).Nodup := by
  have hinv := processLoop_inv dirFiles h archives [] (by intro pr hpr; cases hpr) (by simp)
  refine ⟨fun pr hpr hkey => ?_, hinv.2⟩
  have h2 := hinv.1 pr hpr hkey
  refine ⟨h2, ?_⟩
  rw [h2]
  decide

theorem C3_first_match_wins_witness :
    (["x.tar.bz2"] : List String).contains "x.tar.bz2" = true ∧
      ((∀ pr ∈ process_commands ["x.tar.bz2"] ["x.tar.bz2"], pr.1 = "x.tar.bz2" →
          pr.2 = (⟨"tar -xvjf -", "", true, false⟩ : ArchiveCommand) ∧
            pr.2 ≠ (⟨"bzip2 -d -c -", "", true, true⟩ : ArchiveCommand)) ∧
        ((process_commands ["x.tar.bz2"] ["x.tar.bz2"]).map Prod.fst).Nodup) :=
  ⟨by decide, C3_first_match_wins ["x.tar.bz2"] ["x.tar.bz2"] (by decide)⟩

/-- C4 counterexample: the claim states
`strip_known_suffixes("foo.unknownext") == "foo.unknownext"`, but
`strip_suffix` starts from `PurePath.stem`, which already removes the last
suffix whether or not it is recognized, so the code returns `"foo"`. -/
theorem C4_counterexample : strip_suffix "foo.unknownext" ≠ "foo.unknownext" := by decide

/-- C4 (amended): `strip_suffix("foo.tar.gz") = "foo"` as claimed, but
`strip_suffix("foo.unknownext") = "foo"`: the outermost suffix is always
removed (via `PurePath.stem`), recognized or not; the remaining recognized
suffixes are then stripped iteratively, and stripping stops at an
unrecognized inner suffix (`strip_suffix("foo.unknownext.tar") =
"foo.unknownext"`). -/
theorem C4_strip_suffix_amended :
    strip_suffix "foo.tar.gz" = "foo" ∧
      strip_suffix "foo.unknownext" = "foo" ∧
        strip_suffix "foo.unknownext.tar" = "foo.unknownext" := by decide

/-! ## Process outcomes and Python exception semantics -/

/-- What an attempt to spawn an external tool does: the launch itself fails
(Python raises `OSError`, e.g. `FileNotFoundError`), or the process runs and
exits with a code. -/
inductive ToolOutcome where
  | launchFailure
  | exited (code : Nat)
deriving DecidableEq

/-- The two exception classes relevant to this program's `try/except` blocks.
`subprocess.CalledProcessError` is *not* a subclass of `OSError`. -/
inductive PyExc where
  | osError
  | calledProcessError
deriving DecidableEq

/-- `subprocess.run(cmd, check=True)`: `none` means it returned normally
(exit code 0); `some e` means it raised `e` (`OSError` on launch failure,
`CalledProcessError` on a non-zero exit code). -/
def runChecked (o : ToolOutcome) : Option PyExc :=
  match o with
  | .launchFailure => some .osError
  | .exited c => if c = 0 then none else some .calledProcessError

/-- An `except OSError` handler: catches exactly `OSError`, and lets any other
exception propagate. -/
def catchOSError (r : Option PyExc) : Option PyExc :=
  match r with
  | some PyExc.osError => none
  | r => r

/-! ## `simple_extract` (Extraction Executor) -/

/-- How a call to `simple_extract` ends: a normal `return`, or an uncaught
exception propagating to the caller. -/
inductive ExtractOutcome where
  | returned
  | raised (e : PyExc)
deriving DecidableEq

/-- Observable side effects of one `simple_extract` call.
`ranPrimary`/`ranPipe` record that a launch of the primary/pipe tool was
attempted; `wroteTarget` records `open(target, "w+")` (creating/truncating
the target file); `removedTarget` records `os.remove(target)`. -/
structure ExtractEffects where
  openedArchive : Bool
  ranPrimary : Bool
  ranPipe : Bool
  wroteTarget : Bool
  removedTarget : Bool
deriving DecidableEq

/-- The empty effect record: nothing launched, opened, written or removed. -/
def noEffects : ExtractEffects := ⟨false, false, false, false, false⟩

/-- `simple_extract(archive, archive_cmd, no_clobber)`.

The filesystem is `fs`, the list of existing file names (used for the
`os.path.exists(target)` check). `primary` and `pipeRun` are the outcomes of
spawning the extract command and the pipe command. Faithful to the source:

* target is `strip_suffix archive`; with `no_clobber` set and the target
  existing the function returns before opening the archive;
* no pipe, `uses_stdin` only (or neither flag): `subprocess.run(check=True)`
  inside `try/except OSError` — a launch failure is logged and the function
  returns; a non-zero exit raises `CalledProcessError`, which the handler
  does not match, so it propagates;
* no pipe, `uses_stdin and uses_stdout`: the target is opened `"w+"` first;
  `except OSError` removes the target and returns; a non-zero exit
  propagates `CalledProcessError` without removing the target;
* pipe present: the primary is started with `subprocess.Popen` *outside* the
  `try`, so its launch failure propagates `OSError`; its exit code is never
  checked; the pipe command runs with `check=True` inside `try/except
  OSError`. -/
def simple_extract (fs : List String) (archive : String) (archive_cmd : ArchiveCommand)
    (no_clobber : Bool) (primary pipeRun : ToolOutcome) : ExtractOutcome × ExtractEffects :=
  let uses_stdin := archive_cmd.uses_stdin
  let uses_stdout := archive_cmd.uses_stdout
  let pipeEmpty := archive_cmd.pipe_cmd = ""
  let target := strip_suffix archive
  if fs.contains target && no_clobber then
    (.returned, noEffects)
  else
    if pipeEmpty then
      if uses_stdin && !uses_stdout then
        match catchOSError (runChecked primary) with
        | none => (.returned, ⟨true, true, false, false, false⟩)
        | some e => (.raised e, ⟨true, true, false, false, false⟩)
      else if uses_stdin && uses_stdout then
        match runChecked primary with
        | none => (.returned, ⟨true, true, false, true, false⟩)
        | some PyExc.osError => (.returned, ⟨true, true, false, true, true⟩)
        | some e => (.raised e, ⟨true, true, false, true, false⟩)
      else
        match catchOSError (runChecked primary) with
        | none => (.returned, ⟨true, true, false, false, false⟩)
        | some e => (.raised e, ⟨true, true, false, false, false⟩)
    else
      match primary with
      | .launchFailure => (.raised .osError, ⟨true, true, false, false, false⟩)
      | .exited _ =>
        match catchOSError (runChecked pipeRun) with
        | none => (.returned, ⟨true, true, true, false, false⟩)
        | some e => (.raised e, ⟨true, true, true, false, false⟩)

/-! ## `do_simple_extract` (batch loop) -/

/-- One entry of the zipped `(glob_files, commands)` batch, together with the
modelled environment for it: whether `command_exists` finds the plan's root
command, and the outcomes of its tool launches. -/
structure Job where
  archive : String
  cmd : ArchiveCommand
  rootAvailable : Bool
  primary : ToolOutcome
  pipeRun : ToolOutcome
deriving DecidableEq

/-- `do_simple_extract(glob_files, commands, no_clobber)`: iterates the batch
in order; a missing root command skips that archive (`continue`); an uncaught
exception from `simple_extract` propagates out of the `for` loop, abandoning
the remaining archives. Returns the archives on which extraction was
attempted, and the propagated exception if any. -/
def do_simple_extract (fs : List String) (no_clobber : Bool) :
    List Job → List String × Option PyExc
  | [] => ([], none)
  | j :: rest =>
    if !j.rootAvailable then do_simple_extract fs no_clobber rest
    else
      match simple_extract fs j.archive j.cmd no_clobber j.primary j.pipeRun with
      | (.returned, _) =>
        let r := do_simple_extract fs no_clobber rest
        (j.archive :: r.1, r.2)
      | (.raised e, _) => ([j.archive], some e)

/-- C1: the claim says every non-zero exit or launch failure of the
extraction tool is reported and `simple_extract` returns normally, so the
batch loop continues. The code's handlers catch only `OSError`, while
`subprocess.run(check=True)` raises `CalledProcessError` on a non-zero exit;
that exception propagates through `do_simple_extract` and aborts the batch.
At this concrete input — two well-formed `tar` jobs whose tool is available,
the first exiting with code 2 — the second archive is never attempted and the
uncaught `CalledProcessError` escapes the loop, refuting the claim. -/
theorem C1_nonzero_exit_aborts_batch :
    do_simple_extract [] false
        [⟨"a.tar", ⟨"tar -xvf -", "", true, false⟩, true, .exited 2, .exited 0⟩,
         ⟨"b.tar", ⟨"tar -xvf -", "", true, false⟩, true, .exited 0, .exited 0⟩] =
      (["a.tar"], some PyExc.calledProcessError) ∧
      simple_extract [] "a.tar" ⟨"tar -xvf -", "", true, false⟩ false (.exited 2) (.exited 0) =
        (.raised PyExc.calledProcessError, ⟨true, true, false, false, false⟩) ∧
      simple_extract [] "a.tar" ⟨"tar -xvf -", "", true, false⟩ false .launchFailure (.exited 0) =
        (.returned, ⟨true, true, false, false, false⟩) := by decide

/-- C8: with `no_clobber` set and the derived target already existing on
disk, `simple_extract` returns before opening the archive: no tool launch is
attempted, the archive is not opened, and no file is created, truncated or
removed — the call has the empty effect record, whatever the plan and the
tool outcomes. -/
theorem C8_no_clobber_skip (fs : List String) (archive : String) (cmd : ArchiveCommand)
    (primary pipeRun : ToolOutcome) (h : fs.contains (strip_suffix archive) = true) :
    simple_extract fs archive cmd true primary pipeRun = (.returned, noEffects) := by
  unfold simple_extract
  simp [h]
  intro hn
  exact (hn (by simpa using h)).elim

theorem C8_no_clobber_skip_witness :
    (["data"] : List String).contains (strip_suffix "data.gz") = true ∧
      simple_extract ["data"] "data.gz" ⟨"gzip -d -c -", "", true, true⟩ true
          (.exited 1) (.exited 0) = (.returned, noEffects) :=
  ⟨by decide,
   C8_no_clobber_skip ["data"] "data.gz" ⟨"gzip -d -c -", "", true, true⟩
     (.exited 1) (.exited 0) (by decide)⟩

/-! ## `should_fetch_url` (Fetch Decision Engine) -/

/-- Outcome of the HTTP `HEAD` metadata probe, an external collaborator:
the request fails (`urllib.error.HTTPError` / `URLError`), or it succeeds and
the response carries an optional `content-length` byte count (`none` models a
missing or empty header, the falsy case of the code's check). -/
inductive ProbeOutcome where
  | probeError
  | probeOk (contentLength : Option Nat)
deriving DecidableEq

/-- `should_fetch_url(archive_url, local_archive)`. The probe is issued
first; a probe failure or a missing `content-length` returns `False` before
the local file is even considered. Only then: a missing local file returns
`True`, and otherwise the remote and local byte sizes are compared —
equal sizes skip the download. `localSize` is `os.path.getsize(local_archive)`
when the local file exists, `none` when it does not. -/
def should_fetch_url (probe : ProbeOutcome) (localSize : Option Nat) : Bool :=
  match probe with
  | .probeError => false
  | .probeOk none => false
  | .probeOk (some remote_size) =>
    match localSize with
    | none => true
    | some local_size => if remote_size = local_size then false else true

/-- C5 counterexample: the claim says a missing local file forces
`should_fetch` to return true regardless of the probe's outcome; but the code
probes first and returns `False` on a probe failure even when no local copy
exists. -/
theorem C5_counterexample :
    should_fetch_url ProbeOutcome.probeError none = false := by decide

/-- C5 (amended): when the local path does not exist, `should_fetch_url`
returns true provided the metadata probe succeeds with a `content-length`;
if the probe fails, or the header is missing, it returns false even though no
local copy exists (the probe is consulted first and its failure dominates). -/
theorem C5_absent_local_amended (r : Nat) (localSize : Option Nat) :
    should_fetch_url (.probeOk (some r)) none = true ∧
      should_fetch_url .probeError localSize = false ∧
        should_fetch_url (.probeOk none) localSize = false :=
  ⟨rfl, rfl, rfl⟩

/-- C7: with the local file present (size `l`) and the probe yielding a
content-length `r`, `should_fetch_url` returns false exactly when the sizes
are equal and true exactly when they differ. -/
theorem C7_size_comparison (r l : Nat) :
    (should_fetch_url (.probeOk (some r)) (some l) = false ↔ r = l) ∧
      (should_fetch_url (.probeOk (some r)) (some l) = true ↔ r ≠ l) := by
  unfold should_fetch_url
  by_cases h : r = l <;> simp [h]

/-! ## `fetch_archive` (Archive Fetcher) -/

/-- How a call to `fetch_archive` ends: a returned value (`None` or the
target name), or an uncaught exception. -/
inductive FetchResult where
  | ret (target : Option String)
  | raised (e : PyExc)
deriving DecidableEq

/-- Observable side effects of one `fetch_archive` call: whether
`should_fetch_url` was consulted (the metadata probe), whether the target
file was opened `"w+"` (created/truncated), removed, and whether a launch of
the download tool was attempted. -/
structure FetchEffects where
  probed : Bool
  wroteTarget : Bool
  removedTarget : Bool
  ranDownload : Bool
deriving DecidableEq

/-- `fetch_archive(url, silent_download, force_download)`.

`downloaderAvailable` models the `command_exists` probes of
`make_download_command` (`curl`/`wget`/`fetch`); which tool wins and
`silent_download` only change the argument vector, not the modelled
behaviour. `probe`/`localSize` feed `should_fetch_url`; `download` is the
outcome of spawning the chosen tool. Faithful to the source: no tool →
`None`; unless forced, a `should_fetch_url` veto → `None`; otherwise the
target is opened `"w+"` and the tool run with `check=True` inside
`try/except OSError` — a launch failure removes the target and returns
`None`, a non-zero exit raises `CalledProcessError` (uncaught, target file
left in place), exit 0 returns the target name. -/
def fetch_archive (url : String) (downloaderAvailable silent_download force_download : Bool)
    (probe : ProbeOutcome) (localSize : Option Nat) (download : ToolOutcome) :
    FetchResult × FetchEffects :=
  let target := pyName url
  if !downloaderAvailable then
    (.ret none, ⟨false, false, false, false⟩)
  else if !force_download && !should_fetch_url probe localSize then
    (.ret none, ⟨true, false, false, false⟩)
  else
    let probed := !force_download
    match download with
    | .launchFailure => (.ret none, ⟨probed, true, true, true⟩)
    | .exited c =>
      if c = 0 then (.ret (some target), ⟨probed, true, false, true⟩)
      else (.raised .calledProcessError, ⟨probed, true, false, true⟩)

/-- C2: the claim says a failed download (non-zero exit or launch failure)
and a failed stdin/stdout decompression (non-zero exit) always delete the
partially written target before returning. The handlers catch only
`OSError`, so on a non-zero exit `CalledProcessError` propagates before
`os.remove(target)` is reached: at these concrete inputs the target file was
created (`wroteTarget`), is never removed, and the exception escapes — while
a launch failure does follow the claimed clean-up path. -/
theorem C2_partial_file_left_on_nonzero_exit :
    (fetch_archive "http://h/a.gz" true false false (.probeOk (some 5)) none (.exited 1) =
        (.raised PyExc.calledProcessError, ⟨true, true, false, true⟩)) ∧
      (simple_extract [] "a.gz" ⟨"gzip -d -c -", "", true, true⟩ false (.exited 1) (.exited 0) =
        (.raised PyExc.calledProcessError, ⟨true, true, false, true, false⟩)) ∧
      (fetch_archive "http://h/a.gz" true false false (.probeOk (some 5)) none .launchFailure =
        (.ret none, ⟨true, true, true, true⟩)) ∧
      (simple_extract [] "a.gz" ⟨"gzip -d -c -", "", true, true⟩ false .launchFailure (.exited 0) =
        (.returned, ⟨true, true, false, true, true⟩)) := by decide

/-- C9: with force-download enabled and a download tool available,
`fetch_archive` never consults `should_fetch_url` (no metadata probe, no
skip outcome) and always attempts the download, whatever the probe would
have said and whatever the local file looks like. -/
theorem C9_force_download_always_fetches (url : String) (silent : Bool)
    (probe : ProbeOutcome) (localSize : Option Nat) (download : ToolOutcome) :
    (fetch_archive url true silent true probe localSize download).2.probed = false ∧
      (fetch_archive url true silent true probe localSize download).2.ranDownload = true := by
  unfold fetch_archive
  cases download with
  | launchFailure => exact ⟨rfl, rfl⟩
  | exited c =>
    by_cases h : c = 0 <;> simp [h]

/-! ## The URL loop of `process_archives` -/

/-- Per-URL environment for one `fetch_archive` call inside the loop of
`process_archives`. -/
structure UrlEnv where
  url : String
  downloaderAvailable : Bool
  silent : Bool
  probe : ProbeOutcome
  localSize : Option Nat
  download : ToolOutcome
deriving DecidableEq

/-- The `for url in url_archives` loop of `process_archives`: a falsy result
(`None`) is skipped with `continue`, a truthy target is appended to
`archives`; an uncaught exception from `fetch_archive` propagates and
abandons the rest of the loop. -/
def process_archives_urls (force_download : Bool) :
    List UrlEnv → List String → List String × Option PyExc
  | [], archives => (archives, none)
  | e :: rest, archives =>
    match fetch_archive e.url e.downloaderAvailable e.silent force_download
        e.probe e.localSize e.download with
    | (.ret none, _) => process_archives_urls force_download rest archives
    | (.ret (some t), _) => process_archives_urls force_download rest (archives ++ [t])
    | (.raised ex, _) => (archives, some ex)

/-- C6 counterexample: the claim says the "skipped" result is distinct from a
download error. In the code both are the same value `None`: here the fetch
decision says skip (equal sizes 7 = 7) and, in the second call, the download
tool fails to launch — `fetch_archive` returns `None` in both cases, so the
caller cannot tell them apart. -/
theorem C6_counterexample :
    (fetch_archive "http://h/a.gz" true false false (.probeOk (some 7)) (some 7)
        (.exited 0)).1 = FetchResult.ret none ∧
      (fetch_archive "http://h/a.gz" true false false (.probeOk (some 9)) (some 7)
          .launchFailure).1 = FetchResult.ret none := by decide

/-- C6 (amended): when the Fetch Decision Engine says skip, `fetch_archive`
returns `None` — the *same* value it returns for a failed launch or a missing
download tool, so the skip is not distinct from a download error; the caller
`process_archives` appends neither to the extraction batch and simply
continues with the remaining URLs (the skipped reference is dropped, not
treated specially). -/
theorem C6_skip_result (e : UrlEnv) (rest : List UrlEnv) (archives : List String)
    (hAvail : e.downloaderAvailable = true)
    (hSkip : should_fetch_url e.probe e.localSize = false) :
    (fetch_archive e.url e.downloaderAvailable e.silent false e.probe e.localSize
        e.download).1 = FetchResult.ret none ∧
      process_archives_urls false (e :: rest) archives =
        process_archives_urls false rest archives := by
  have hres : fetch_archive e.url e.downloaderAvailable e.silent false e.probe e.localSize
      e.download = (.ret none, ⟨true, false, false, false⟩) := by
    unfold fetch_archive
    rw [hAvail]
    simp [hSkip]
  refine ⟨by rw [hres], ?_⟩
  conv_lhs => rw [process_archives_urls]
  rw [hres]

theorem C6_skip_result_witness :
    ((⟨"http://h/a.gz", true, false, .probeOk (some 7), some 7, .exited 0⟩ :
          UrlEnv).downloaderAvailable = true) ∧
      should_fetch_url (ProbeOutcome.probeOk (some 7)) (some 7) = false ∧
      ((fetch_archive "http://h/a.gz" true false false (.probeOk (some 7)) (some 7)
          (.exited 0)).1 = FetchResult.ret none ∧
        process_archives_urls false
            [⟨"http://h/a.gz", true, false, .probeOk (some 7), some 7, .exited 0⟩] [] =
          process_archives_urls false [] []) :=
  ⟨by decide, by decide,
   C6_skip_result ⟨"http://h/a.gz", true, false, .probeOk (some 7), some 7, .exited 0⟩
     [] [] (by decide) (by decide)⟩

/-! ## `extract_urls` (URL filter) -/

/-- The result of `urllib.parse.urlsplit` (an external collaborator): the
five components of a split URL. A component is "present" in the Python
truthiness sense when it is a non-empty string. -/
structure SplitResult where
  scheme : String
  netloc : String
  path : String
  query : String
  fragment : String
deriving DecidableEq

/-- `extract_urls(args)`, over the already-split inputs: keep the entries
whose scheme, netloc and path are all non-empty, in order, and rebuild each
kept entry as `scheme + "://" + netloc + path` (query and fragment are never
consulted). -/
def extract_urls (args : List SplitResult) : List String :=
  ((args.map (fun x =>
        if x.scheme ≠ "" ∧ x.netloc ≠ "" ∧ x.path ≠ "" then some x else none)).filter
      (fun x => x.isSome)).filterMap
    (fun x => x.map (fun y => y.scheme ++ "://" ++ y.netloc ++ y.path))

/-- C10: `extract_urls` returns, in input order, exactly the entries whose
parsed form has a non-empty scheme, host and path, rebuilt as
`scheme://host+path`; the query and fragment components are discarded —
changing them in every input leaves the result unchanged. -/
theorem extract_urls_spec (args : List SplitResult) :
    extract_urls args =
      (args.filter (fun x => decide (x.scheme ≠ "" ∧ x.netloc ≠ "" ∧ x.path ≠ ""))).map
        (fun x => x.scheme ++ "://" ++ x.netloc ++ x.path) := by
  induction args with
  | nil => rfl
  | cons a rest ih =>
    simp only [extract_urls] at ih ⊢
    by_cases h : a.scheme ≠ "" ∧ a.netloc ≠ "" ∧ a.path ≠ ""
    · simp [List.filter_cons, h, decide_eq_true h, ih]
    · simp [List.filter_cons, h, decide_eq_false h, ih]

theorem C10_url_filter (args : List SplitResult) (q frag : String) :
    extract_urls args =
      (args.filter (fun x => decide (x.scheme ≠ "" ∧ x.netloc ≠ "" ∧ x.path ≠ ""))).map
        (fun x => x.scheme ++ "://" ++ x.netloc ++ x.path) ∧
      extract_urls (args.map (fun x => ⟨x.scheme, x.netloc, x.path, q, frag⟩)) =
        extract_urls args := by
  refine ⟨extract_urls_spec args, ?_⟩
  rw [extract_urls_spec, extract_urls_spec, List.filter_map, List.map_map]
  rfl

end SimpleExtract
